import Mathlib

/-!
Verification development for the `openclaw-do-gradient` repository.

This file gives a shallow embedding of the two analysed Python modules

  * `skills/gradient-data-gathering/scripts/gather_fundamentals.py`
    (concept-fallback extraction, temporal deduplication, ratio derivation), and
  * `skills/gradient-research-assistant/scripts/gather.py`
    (source runner and multi-source gather orchestrator),

and proves or refutes the frozen specification claims about them.

Modelling conventions:

  * Python numeric fact values become `Option ℚ` (`none` models JSON `null` /
    a missing `"val"` key; `float` applied to a numeric value is exact).
  * Python dictionaries that are used as string-keyed maps become association
    lists (`List (String × _)`) queried with `List.lookup`, with `.getD`
    supplying the `dict.get(key, default)` default.
  * Python string comparison (used by `results.sort(key=lambda x: x["end_date"])`)
    is lexicographic on code points; `lexLe` below reproduces it.  The stable
    `list.sort` is modelled by `List.insertionSort`, which is stable for a
    total preorder, matching CPython Timsort on the orderings used here.
  * Raising an exception is modelled with `Except String`; code that cannot
    raise is embedded as a total function.
  * External effects (HTTP fetch, object-storage upload, reindex trigger,
    `time.sleep`) are modelled with oracle parameters plus an explicit event
    trace `List Ev`; the real wall clock (`datetime.now().year`) becomes an
    explicit `currentYear`-derived `cutoff` parameter.
-/

/-! ## Python string and number primitives -/

/-- Lexicographic comparison of character lists by Unicode code point,
mirroring CPython `str` comparison (`a <= b`). -/
def lexLe : List Char → List Char → Bool
  | [], _ => true
  | _ :: _, [] => false
  | a :: as, b :: bs =>
    if a.toNat < b.toNat then true
    else if b.toNat < a.toNat then false
    else lexLe as bs

/-- Python `a <= b` on strings. -/
def strLe (a b : String) : Bool := lexLe a.data b.data

/-- Interpret a list of decimal digit characters as a natural number;
`none` if empty or any character is not a digit.  Helper for `pyInt`. -/
def digitsToNat : List Char → Option Nat
  | [] => none
  | l =>
    l.foldl
      (fun acc c =>
        match acc with
        | none => none
        | some n => if c.isDigit then some (n * 10 + (c.toNat - 48)) else none)
      (some 0)

/-- Python `int(s)` on a compact decimal string (an optional sign followed by
digits); `none` models the `ValueError` raised otherwise.  This is the only
shape `int` ever sees here — it is applied to `end_date[:4]` of an ISO date. -/
def pyInt (s : String) : Option Int :=
  match s.data with
  | '-' :: rest => (digitsToNat rest).map (fun n => -(n : Int))
  | '+' :: rest => (digitsToNat rest).map (fun n => (n : Int))
  | l => (digitsToNat l).map (fun n => (n : Int))

/-- Remove every (left-to-right, non-overlapping) occurrence of `"/A"`,
mirroring Python `s.replace("/A", "")` for this two-character pattern. -/
def stripSlashA : List Char → List Char
  | [] => []
  | '/' :: 'A' :: rest => stripSlashA rest
  | c :: rest => c :: stripSlashA rest

/-- `form.replace("/A", "")` — strip the amendment suffix from a filing type. -/
def stripA (s : String) : String := ⟨stripSlashA s.data⟩

/-- Python `float(x)` applied to a fact value: `float(None)` raises
`TypeError`; on a numeric value it is the identity (exact in this model). -/
def pyFloat : Option ℚ → Except String ℚ
  | none => Except.error "TypeError"
  | some q => Except.ok q

/-- Python `", ".join(l)`. -/
def joinComma : List String → String
  | [] => ""
  | [s] => s
  | s :: rest => s ++ ", " ++ joinComma rest

/-! ## Data model: raw XBRL entries and cleaned observations

`RawEntry` is one element of `facts["facts"]["us-gaap"][concept]["units"][unit]`
as read by `_extract_concept_data`; the fields are what the code projects via
`entry.get(...)`, with the `get` defaults (`""` for strings, `None`/`none` for
the value and fiscal year) already applied. -/

structure RawEntry where
  val : Option ℚ
  end_ : String
  form : String
  filed : String
  fy : Option Int
  fp : String
deriving DecidableEq, Repr

/-- One cleaned observation, the result dict built at
`gather_fundamentals.py:239-246`
(`value` / `end_date` / `form` / `filed` / `fiscal_year` / `fiscal_period`). -/
structure Obs where
  value : Option ℚ
  end_date : String
  form : String
  filed : String
  fiscal_year : Option Int
  fiscal_period : String
deriving DecidableEq, Repr

/-- The `units` dict of one concept: unit kind → list of raw entries.
(The code reads only `concept.get("units", {})`, so a concept is modelled by
its units map; a missing concept or missing `"units"` key is the empty map.) -/
abbrev UnitsMap := List (String × List RawEntry)

/-- The `us-gaap` taxonomy dict: concept name → units map.  This models
`facts.get("facts", {}).get("us-gaap", {})`; a payload missing either wrapper
key is the empty map. -/
abbrev GaapMap := List (String × UnitsMap)

/-- The unit kinds tried, in priority order (`gather_fundamentals.py:212`). -/
def UNIT_PRIORITY : List String := ["USD", "USD/shares", "shares", "pure"]

/-! ## Temporal Extractor (`_extract_concept_data`, lines 192-260) -/

/-- The per-entry filter of the extraction loop (lines 222-246): keep only
10-K/10-Q filings (original or amended), with a non-empty period-end date
whose leading four characters parse as a year not before the cutoff, and
reshape the entry into an observation. -/
def filterEntries (entries : List RawEntry) (cutoff : Int) : List Obs :=
  entries.filterMap fun e =>
    if ["10-K", "10-Q", "10-K/A", "10-Q/A"].contains e.form then
      if e.end_ = "" then none
      else
        match pyInt (e.end_.take 4) with
        | none => none
        | some y =>
          if y < cutoff then none
          else some ⟨e.val, e.end_, e.form, e.filed, e.fy, e.fp⟩
    else none

/-- Ordering of observations by period-end date string (the sort key
`lambda x: x["end_date"]` of line 250). -/
def obsLe (a b : Obs) : Prop := strLe a.end_date b.end_date = true

instance : DecidableRel obsLe := fun a b => instDecidableEqBool _ _

/-- `results.sort(key=lambda x: x["end_date"])` — a stable ascending sort. -/
def sortObs (l : List Obs) : List Obs := List.insertionSort obsLe l

/-- Deduplication key of line 254: `(end_date, form.replace("/A", ""))`. -/
def obsKey (o : Obs) : String × String := (o.end_date, stripA o.form)

/-- The dedup loop of lines 251-257: walk the sorted list, keeping an entry
only when its key has not been seen yet (i.e. the FIRST entry per key is
kept); `seen` accumulates the keys already emitted. -/
def dedupByKey : List Obs → List (String × String) → List Obs
  | [], _ => []
  | r :: rs, seen =>
    if obsKey r ∈ seen then dedupByKey rs seen
    else r :: dedupByKey rs (obsKey r :: seen)

/-- The unit-kind loop of lines 212-258 for one concept: try each unit kind in
priority order and, at the first one whose filtered results are non-empty,
return them sorted and deduplicated.  (The `if not entries: continue` guard of
line 214 is subsumed: an empty entry list filters to an empty result list.) -/
def tryUnits (units : UnitsMap) (cutoff : Int) : List String → Option (List Obs)
  | [] => none
  | ut :: rest =>
    let results := filterEntries ((units.lookup ut).getD []) cutoff
    if results = [] then tryUnits units cutoff rest
    else some (dedupByKey (sortObs results) [])

/-- `_extract_concept_data(facts, concept_names, years)` with the wall clock
made explicit: `cutoff` stands for `datetime.now().year - years`.  Tries each
concept alias in order until one yields data under some unit kind; returns
`[]` when none does. -/
def extract_concept_data (usGaap : GaapMap) (conceptNames : List String)
    (cutoff : Int) : List Obs :=
  match conceptNames with
  | [] => []
  | c :: rest =>
    match tryUnits ((usGaap.lookup c).getD []) cutoff UNIT_PRIORITY with
    | some obs => obs
    | none => extract_concept_data usGaap rest cutoff

/-- Observations surviving the filter for one concept alias under one unit
kind — the declarative reading of "this alias has data in this unit kind". -/
def survivors (usGaap : GaapMap) (c ut : String) (cutoff : Int) : List Obs :=
  filterEntries ((((usGaap.lookup c).getD []).lookup ut).getD []) cutoff

/-- An alias "has data": some unit kind in the priority list has surviving
observations. -/
def alias_has_data (usGaap : GaapMap) (c : String) (cutoff : Int) : Prop :=
  ∃ ut ∈ UNIT_PRIORITY, survivors usGaap c ut cutoff ≠ []

instance (usGaap : GaapMap) (c : String) (cutoff : Int) :
    Decidable (alias_has_data usGaap c cutoff) :=
  List.decidableBEx _ UNIT_PRIORITY

/-- The first unit kind (in priority order) under which an alias has
surviving observations. -/
def first_unit_with_data (usGaap : GaapMap) (c : String) (cutoff : Int) :
    Option String :=
  UNIT_PRIORITY.find? (fun ut => !(survivors usGaap c ut cutoff).isEmpty)

/-- The series one alias contributes when it is chosen (the sorted,
deduplicated survivors of its first unit kind with data); `none` when the
alias has no data. -/
def alias_result (usGaap : GaapMap) (c : String) (cutoff : Int) :
    Option (List Obs) :=
  tryUnits ((usGaap.lookup c).getD []) cutoff UNIT_PRIORITY

/-! ## Derivation Engine (`format_fundamentals_markdown`, derivation parts)

The rendered markdown strings are out of scope (spec §1 excludes
pretty-printing); a derived figure is modelled as a `(label, value)` pair so
that presence/absence in the output is exactly presence/absence of the key. -/

/-- One category of the metrics document: metric name → observation series. -/
abbrev MetricsMap := List (String × List Obs)

/-- `_get_latest_value(data_points, form_filter)` (lines 419-430): the last
entry whose amendment-stripped form matches the filter, else the last entry of
any form, else `None` on an empty list. -/
def get_latest_value (data : List Obs) (form_filter : String) : Option Obs :=
  if data = [] then none
  else
    let filtered := data.filter fun d => stripA d.form == form_filter
    match filtered.getLast? with
    | some x => some x
    | none => data.getLast?

/-- One margin line of lines 547-560: emitted only when the numerator metric
has a latest observation whose value is truthy (non-`None` and non-zero). -/
def marginEntry (label : String) (dat : List Obs) (rev_val : ℚ) :
    List (String × ℚ) :=
  match get_latest_value dat "10-K" with
  | none => []
  | some l =>
    match l.value with
    | none => []
    | some v => if v = 0 then [] else [(label, v / rev_val * 100)]

/-- The margins block of lines 537-563: requires a latest revenue observation
with a truthy, strictly positive value, then computes the gross / operating /
net margins independently. -/
def computeMargins (income : MetricsMap) : List (String × ℚ) :=
  let rev_data := (income.lookup "revenue").getD []
  let gp_data := (income.lookup "gross_profit").getD []
  let ni_data := (income.lookup "net_income").getD []
  let oi_data := (income.lookup "operating_income").getD []
  match get_latest_value rev_data "10-K" with
  | none => []
  | some rl =>
    match rl.value with
    | none => []
    | some rv =>
      if rv = 0 then []
      else if rv > 0 then
        marginEntry "Gross" gp_data rv ++ marginEntry "Operating" oi_data rv
          ++ marginEntry "Net" ni_data rv
      else []

/-- The key-ratios block of lines 634-657.  `Except` carries a raised
`TypeError`: the guards test truthiness of the denominator-side value only, so
`float(...)` applied to the other operand can still see `None`
(`float(liabilities["value"])`, `float(curr_assets["value"])`,
`float(cash["value"])` at lines 645, 649, 653). -/
def computeRatios (balance : MetricsMap) : Except String (List (String × ℚ)) := do
  let _assets := get_latest_value ((balance.lookup "total_assets").getD []) "10-K"
  let liabilities := get_latest_value ((balance.lookup "total_liabilities").getD []) "10-K"
  let equity := get_latest_value ((balance.lookup "stockholders_equity").getD []) "10-K"
  let cash := get_latest_value ((balance.lookup "cash").getD []) "10-K"
  let lt_debt := get_latest_value ((balance.lookup "long_term_debt").getD []) "10-K"
  let curr_assets := get_latest_value ((balance.lookup "current_assets").getD []) "10-K"
  let curr_liab := get_latest_value ((balance.lookup "current_liabilities").getD []) "10-K"
  let de ←
    match equity, liabilities with
    | some e, some li =>
      match e.value with
      | some ev =>
        if ev = 0 then pure []
        else do
          let lv ← pyFloat li.value
          pure [("D/E", lv / ev)]
      | none => pure []
    | _, _ => pure []
  let cr ←
    match curr_assets, curr_liab with
    | some ca, some cl =>
      match cl.value with
      | some cv =>
        if cv = 0 then pure []
        else do
          let av ← pyFloat ca.value
          pure [("Current", av / cv)]
      | none => pure []
    | _, _ => pure []
  let nd ←
    match cash, lt_debt with
    | some c, some ld =>
      match ld.value with
      | some dv =>
        if dv = 0 then pure []
        else do
          let cv ← pyFloat c.value
          pure [("Net Debt", dv - cv)]
      | none => pure []
    | _, _ => pure []
  pure (de ++ cr ++ nd)

/-- The free-cash-flow derivation of lines 683-687: emitted only when both the
operating-cash-flow and capex metrics have a latest observation with a
non-`None` value; capex enters by absolute value.  Both operands are guarded
with `is not None`, so no `TypeError` is possible here. -/
def computeFCF (cash_flow : MetricsMap) : Option ℚ :=
  let ocf := get_latest_value ((cash_flow.lookup "operating_cash_flow").getD []) "10-K"
  let capex := get_latest_value ((cash_flow.lookup "capex").getD []) "10-K"
  match ocf, capex with
  | some o, some c =>
    match o.value, c.value with
    | some ov, some cv => some (ov - |cv|)
    | _, _ => none
  | _, _ => none

/-- The latest (annual-preferred) value of one income metric, as the margin
guards read it: the `value` field of the latest observation, `none` when the metric
is absent, has no observations, or its latest value is `null`. -/
def numeratorLatest (income : MetricsMap) (metric : String) : Option ℚ :=
  (get_latest_value ((income.lookup metric).getD []) "10-K").bind (·.value)

/-! ## Source Runner and Gather Orchestrator (`gather.py`)

External effects are oracles; the second component of each function is the
trace of boundary events it emits, in order:

  * `runCall s`     — `run_source` is entered for source `s`;
  * `fetchCall s`   — the registered gather function of `s` is invoked
    (`gather_func(...)`, line 101);
  * `sleepCall`     — `time.sleep(0.2)` pacing (line 270);
  * `storeCall s`   — `store_source_result` is entered for source `s`
    (the storage-sink boundary of step 3);
  * `reindexCall`   — `trigger_reindex` is entered (the reindex-sink
    boundary of step 4). -/

inductive Ev where
  | runCall (source : String)
  | fetchCall (source : String)
  | sleepCall
  | storeCall (source : String)
  | reindexCall
deriving DecidableEq, Repr

/-- What one registered gather function returns, as read by `run_source`:
the markdown and the per-source count fields, each already defaulted to
`""` / `0` as the `result.get(...)` calls do. -/
structure FetchResult where
  markdown : String
  article_count : Int
  filing_count : Int
  metric_count : Int
  post_count : Int
  signal_count : Int
deriving DecidableEq, Repr

/-- Outcome of invoking a registered gather function: either it raises
(any fault, including a failed module import) or it returns a result dict. -/
inductive FetchOutcome where
  | raises (msg : String)
  | returns (r : FetchResult)
deriving DecidableEq, Repr

/-- Oracle for the external gather functions:
`(source, ticker, company_name, theme, directive) ↦ outcome`. -/
abbrev FetchOracle := String → String → String → Option String → Option String → FetchOutcome

/-- The names registered in `SOURCE_REGISTRY` (line 47); the module / function
names the registry maps to are plumbing for the fetch oracle. -/
def SOURCE_REGISTRY : List String := ["web", "fundamentals", "social", "technicals"]

/-- Per-source Gather Result (`run_source` return dict). -/
structure GatherR where
  source : String
  success : Bool
  markdown : String
  metric_count : Int
  error : Option String
deriving DecidableEq, Repr

/-- The per-source count projection of lines 107-114. -/
def metricCountFor (source : String) (r : FetchResult) : Int :=
  if source = "web" then r.article_count + r.filing_count
  else if source = "fundamentals" then r.metric_count
  else if source = "social" then r.post_count
  else if source = "technicals" then r.signal_count
  else 0

/-- `run_source` (lines 68-131): unknown sources fail immediately without a
fetch; known sources invoke the oracle, converting a raised fault into a
failed result. -/
def run_source (fetch : FetchOracle) (source ticker company : String)
    (theme directive : Option String) : GatherR × List Ev :=
  if source ∈ SOURCE_REGISTRY then
    match fetch source ticker company theme directive with
    | .raises msg =>
      (⟨source, false, "", 0, some msg⟩, [.runCall source, .fetchCall source])
    | .returns r =>
      (⟨source, true, r.markdown, metricCountFor source r, none⟩,
        [.runCall source, .fetchCall source])
  else
    (⟨source, false, "", 0, some ("Unknown source: " ++ source)⟩,
      [.runCall source])

/-- Per-source Store Result. -/
structure StoreR where
  success : Bool
  key : String
  message : String
deriving DecidableEq, Repr

/-- Oracle for the storage sink: `(markdown, ticker, source, timestamp) ↦
result`; a raised fault or missing `store` module is already folded into a
failed record by the `except` arms of lines 176-187. -/
abbrev StoreOracle := String → String → String → String → StoreR

/-- `store_source_result` (lines 137-187).  In dry-run mode it synthesizes a
successful placeholder without contacting the sink. -/
def store_source_result (store : StoreOracle)
    (ticker source markdown timestamp : String) (dry_run : Bool) :
    StoreR × List Ev :=
  if dry_run then
    (⟨true, "research/" ++ timestamp.take 10 ++ "/" ++ ticker ++ "_" ++ source ++ ".md",
      "[DRY RUN] Would upload to research/" ++ timestamp.take 10 ++ "/" ++ ticker
        ++ "_" ++ source ++ ".md"⟩,
      [.storeCall source])
  else (store markdown ticker source timestamp, [.storeCall source])

/-- Reindex Result. -/
structure ReindexR where
  success : Bool
  message : String
deriving DecidableEq, Repr

/-- `trigger_reindex` (lines 190-208); the oracle is the outcome of
`trigger_kb_reindex()` with the `except` arms already folded in. -/
def trigger_reindex (reindex : ReindexR) (dry_run : Bool) : ReindexR × List Ev :=
  if dry_run then (⟨true, "[DRY RUN] Would trigger KB reindex"⟩, [.reindexCall])
  else (reindex, [.reindexCall])

/-- Default sources per agent (`AGENT_SOURCES`, line 55). -/
def AGENT_SOURCES : List (String × List String) :=
  [("nova", ["web", "fundamentals"]), ("luna", ["social"]),
   ("ace", ["technicals"]), ("max", [])]

/-- Source-list resolution (lines 245-246): the explicit list when given, else
the default list of the agent (empty for an unknown agent). -/
def resolve_sources (agent : String) (sources? : Option (List String)) :
    List String :=
  match sources? with
  | some s => s
  | none => (AGENT_SOURCES.lookup agent).getD []

/-- The gather loop of lines 263-270: one `run_source` per source in order,
with a pacing sleep after each source whose NAME differs from the name of the
last element (`if source != sources[-1]`). -/
def run_sources_loop (fetch : FetchOracle) (ticker company : String)
    (theme directive : Option String) (last : String) :
    List String → List GatherR × List Ev
  | [] => ([], [])
  | s :: rest =>
    let r := run_source fetch s ticker company theme directive
    let tail := run_sources_loop fetch ticker company theme directive last rest
    (r.1 :: tail.1, r.2 ++ (if s = last then [] else [Ev.sleepCall]) ++ tail.2)

/-- The store loop of lines 273-292: attempt a store for each successful
gather with non-empty markdown, else record a skipped result; the `Bool` is
`any_stored` — whether some attempted store succeeded. -/
def store_loop (store : StoreOracle) (ticker timestamp : String)
    (dry_run : Bool) : List GatherR → List StoreR × Bool × List Ev
  | [] => ([], false, [])
  | gr :: rest =>
    let tail := store_loop store ticker timestamp dry_run rest
    if gr.success = true ∧ gr.markdown ≠ "" then
      let sr := store_source_result store ticker gr.source gr.markdown timestamp dry_run
      (sr.1 :: tail.1, sr.1.success || tail.2.1, sr.2 ++ tail.2.2)
    else
      (⟨false, "", "Skipped: " ++ gr.source ++ " gather failed"⟩ :: tail.1,
        tail.2.1, tail.2.2)

/-- `_source_label` (lines 337-345). -/
def source_label (source : String) (count : Int) : String :=
  (List.lookup source
    [("web", toString count ++ " articles/filings"),
     ("fundamentals", toString count ++ " financial metrics"),
     ("social", toString count ++ " social posts"),
     ("technicals", toString count ++ " technical signals")]).getD
    (toString count ++ " items from " ++ source)

/-- The digest before the failure clause (lines 304-310). -/
def summary_base (ticker : String) (grs : List GatherR) : String :=
  let parts := (grs.filter (·.success)).map fun gr => source_label gr.source gr.metric_count
  if parts = [] then "$" ++ ticker ++ ": no data gathered"
  else "$" ++ ticker ++ ": " ++ joinComma parts

/-- The parenthetical failure clause appended at lines 312-314. -/
def failed_clause (names : List String) : String :=
  " (failed: " ++ joinComma names ++ ")"

/-- The full digest (lines 304-314): the failure clause is appended exactly
when some source failed. -/
def build_summary (ticker : String) (grs : List GatherR) : String :=
  let failed := grs.filter fun gr => !gr.success
  if failed = [] then summary_base ticker grs
  else summary_base ticker grs ++ failed_clause (failed.map (·.source))

/-- The return dict of the orchestrator.  `gather_results` keeps the full per-source
records (the source strips the `markdown` field when embedding copies into the
returned dict, lines 322-325, and re-attaches `sources[i]` as the store-result
name, lines 326-329 — projections that lose no information the claims use).
`dry_run` is `none` for the early no-sources return, whose dict has no
`dry_run` key. -/
structure GatherReturn where
  ticker : String
  company : String
  agent : String
  timestamp : String
  sources : List String
  gather_results : List GatherR
  store_results : List StoreR
  reindex : ReindexR
  summary : String
  success : Bool
  dry_run : Option Bool
deriving DecidableEq, Repr

/-- The orchestrator body for a non-empty resolved source list
(steps 2-5 of `gather`, lines 262-334). -/
def gather_main (fetch : FetchOracle) (store : StoreOracle) (reindex : ReindexR)
    (ticker company agent : String) (theme directive : Option String)
    (dry_run : Bool) (timestamp : String) (sources : List String) :
    GatherReturn × List Ev :=
  let last := sources.getLast?.getD ""
  let gres := run_sources_loop fetch ticker company theme directive last sources
  let sres := store_loop store ticker timestamp dry_run gres.1
  let rres :=
    if sres.2.1 then trigger_reindex reindex dry_run
    else (⟨false, "No data stored — skipping reindex"⟩, [])
  (⟨ticker, company, agent, timestamp, sources, gres.1, sres.1, rres.1,
    build_summary ticker gres.1, !((gres.1.filter (·.success)).isEmpty),
    some dry_run⟩,
    gres.2 ++ sres.2.2 ++ rres.2)

/-- `gather` (lines 214-334): resolve the source list, short-circuit when it
is empty (lines 248-260), otherwise run the pipeline. -/
def gather (fetch : FetchOracle) (store : StoreOracle) (reindex : ReindexR)
    (ticker company agent : String) (sources? : Option (List String))
    (theme directive : Option String) (dry_run : Bool) (timestamp : String) :
    GatherReturn × List Ev :=
  let sources := resolve_sources agent sources?
  if sources = [] then
    (⟨ticker, company, agent, timestamp, [], [], [],
      ⟨false, "No sources to gather"⟩,
      "No sources configured for agent \x27" ++ agent ++ "\x27", false, none⟩,
      [])
  else
    gather_main fetch store reindex ticker company agent theme directive
      dry_run timestamp sources

/-! ## Helper lemmas: the sort order and deduplication -/

theorem lexLe_total : ∀ as bs, lexLe as bs = true ∨ lexLe bs as = true := by
  intro as
  induction as with
  | nil => intro bs; left; rfl
  | cons a as ih =>
    intro bs
    cases bs with
    | nil => right; rfl
    | cons b bs =>
      rcases Nat.lt_trichotomy a.toNat b.toNat with h | h | h
      · left; simp [lexLe, h]
      · rcases ih bs with h2 | h2
        · left; simp [lexLe, h, Nat.lt_irrefl, h2]
        · right; simp [lexLe, h, Nat.lt_irrefl, h2]
      · right; simp [lexLe, h]

theorem lexLe_trans :
    ∀ as bs cs, lexLe as bs = true → lexLe bs cs = true → lexLe as cs = true := by
  intro as
  induction as with
  | nil => intro bs cs _ _; rfl
  | cons a as ih =>
    intro bs cs h1 h2
    cases bs with
    | nil => simp [lexLe] at h1
    | cons b bs =>
      cases cs with
      | nil => simp [lexLe] at h2
      | cons c cs =>
        rcases Nat.lt_trichotomy a.toNat b.toNat with hab | hab | hab
        · rcases Nat.lt_trichotomy b.toNat c.toNat with hbc | hbc | hbc
          · simp [lexLe, Nat.lt_trans hab hbc]
          · simp [lexLe, hbc ▸ hab]
          · simp [lexLe, Nat.lt_asymm hbc, hbc] at h2
        · simp only [lexLe, hab, Nat.lt_irrefl, if_false, if_neg] at h1
          rcases Nat.lt_trichotomy b.toNat c.toNat with hbc | hbc | hbc
          · simp [lexLe, hab ▸ hbc]
          · simp only [lexLe, hbc, Nat.lt_irrefl, if_false, if_neg] at h2
            have hac : a.toNat = c.toNat := hab.trans hbc
            simp only [lexLe, hac, Nat.lt_irrefl, if_false, if_neg]
            exact ih bs cs h1 h2
          · simp [lexLe, Nat.lt_asymm hbc, hbc] at h2
        · simp [lexLe, Nat.lt_asymm hab, hab] at h1

instance : IsTotal Obs obsLe :=
  ⟨fun a b => lexLe_total a.end_date.data b.end_date.data⟩

instance : IsTrans Obs obsLe :=
  ⟨fun _ _ _ h1 h2 => lexLe_trans _ _ _ h1 h2⟩

theorem sortObs_sorted (l : List Obs) : (sortObs l).Sorted obsLe :=
  List.sorted_insertionSort obsLe l

theorem dedupByKey_sublist : ∀ l seen, List.Sublist (dedupByKey l seen) l := by
  intro l
  induction l with
  | nil => intro seen; simp [dedupByKey]
  | cons r rs ih =>
    intro seen
    simp only [dedupByKey]
    split
    · exact (ih seen).cons r
    · exact List.cons_sublist_cons.mpr (ih _)

theorem dedupByKey_key_not_seen :
    ∀ l seen x, x ∈ dedupByKey l seen → obsKey x ∉ seen := by
  intro l
  induction l with
  | nil => intro seen x hx; simp [dedupByKey] at hx
  | cons r rs ih =>
    intro seen x hx
    simp only [dedupByKey] at hx
    split at hx
    · exact ih seen x hx
    · rcases List.mem_cons.mp hx with rfl | hx
      · assumption
      · intro hmem
        exact ih _ x hx (List.mem_cons_of_mem _ hmem)

theorem dedupByKey_pairwise_keys :
    ∀ l seen, (dedupByKey l seen).Pairwise (fun a b => obsKey a ≠ obsKey b) := by
  intro l
  induction l with
  | nil => intro seen; simp [dedupByKey]
  | cons r rs ih =>
    intro seen
    simp only [dedupByKey]
    split
    · exact ih seen
    · refine List.Pairwise.cons ?_ (ih _)
      intro y hy hkey
      exact dedupByKey_key_not_seen _ _ y hy (hkey ▸ List.mem_cons_self _ _)

theorem dedupByKey_sorted (l : List Obs) (seen : List (String × String))
    (h : l.Sorted obsLe) : (dedupByKey l seen).Sorted obsLe :=
  List.Pairwise.sublist (dedupByKey_sublist l seen) h

/-- Every series produced by the unit-kind loop is key-deduplicated and
sorted by period-end date. -/
theorem tryUnits_invariants :
    ∀ uts (units : UnitsMap) (cutoff : Int) r,
      tryUnits units cutoff uts = some r →
      r.Pairwise (fun a b => obsKey a ≠ obsKey b) ∧ r.Sorted obsLe := by
  intro uts
  induction uts with
  | nil => intro units cutoff r h; simp [tryUnits] at h
  | cons ut rest ih =>
    intro units cutoff r h
    simp only [tryUnits] at h
    split at h
    · exact ih units cutoff r h
    · cases h
      exact ⟨dedupByKey_pairwise_keys _ _,
        dedupByKey_sorted _ _ (sortObs_sorted _)⟩

/-! ## Helper lemmas: first-match characterization of the resolver -/

theorem tryUnits_eq_find :
    ∀ uts (units : UnitsMap) (cutoff : Int),
      tryUnits units cutoff uts =
        (uts.find? fun ut =>
            !(filterEntries ((units.lookup ut).getD []) cutoff).isEmpty).map
          fun ut => dedupByKey (sortObs (filterEntries ((units.lookup ut).getD []) cutoff)) [] := by
  intro uts
  induction uts with
  | nil => intro units cutoff; rfl
  | cons ut rest ih =>
    intro units cutoff
    simp only [tryUnits, List.find?]
    split
    · rename_i hnil
      rw [show (!(filterEntries ((units.lookup ut).getD []) cutoff).isEmpty) = false by
        simp [hnil]]
      exact ih units cutoff
    · rename_i hnil
      rw [show (!(filterEntries ((units.lookup ut).getD []) cutoff).isEmpty) = true by
        simpa [List.isEmpty_iff] using hnil]
      rfl

theorem alias_result_eq_map_first_unit (usGaap : GaapMap) (c : String) (cutoff : Int) :
    alias_result usGaap c cutoff =
      (first_unit_with_data usGaap c cutoff).map
        fun ut => dedupByKey (sortObs (survivors usGaap c ut cutoff)) [] := by
  unfold alias_result first_unit_with_data survivors
  exact tryUnits_eq_find UNIT_PRIORITY _ cutoff

theorem alias_has_data_iff_isSome (usGaap : GaapMap) (c : String) (cutoff : Int) :
    alias_has_data usGaap c cutoff ↔ (alias_result usGaap c cutoff).isSome := by
  rw [alias_result_eq_map_first_unit]
  unfold alias_has_data first_unit_with_data
  rcases hfind : List.find? (fun ut => !(survivors usGaap c ut cutoff).isEmpty)
      UNIT_PRIORITY with _ | u
  · simp only [hfind, Option.map_none', Option.isSome_none]
    rw [List.find?_eq_none] at hfind
    constructor
    · rintro ⟨ut, hmem, hne⟩
      exact absurd
        (by simpa [List.isEmpty_iff] using hfind ut hmem :
          survivors usGaap c ut cutoff = []) hne
    · intro h; exact absurd h (by simp)
  · simp only [hfind, Option.map_some', Option.isSome_some]
    constructor
    · intro _; trivial
    · intro _
      refine ⟨u, List.mem_of_find?_eq_some hfind, ?_⟩
      have hp := List.find?_some hfind
      simpa [List.isEmpty_iff] using hp

theorem extract_cons_of_none (usGaap : GaapMap) (c : String) (rest : List String)
    (cutoff : Int) (h : alias_result usGaap c cutoff = none) :
    extract_concept_data usGaap (c :: rest) cutoff =
      extract_concept_data usGaap rest cutoff := by
  have hstep : extract_concept_data usGaap (c :: rest) cutoff =
      match tryUnits ((usGaap.lookup c).getD []) cutoff UNIT_PRIORITY with
      | some obs => obs
      | none => extract_concept_data usGaap rest cutoff := rfl
  unfold alias_result at h
  rw [hstep, h]

theorem extract_cons_of_some (usGaap : GaapMap) (c : String) (rest : List String)
    (cutoff : Int) (r : List Obs) (h : alias_result usGaap c cutoff = some r) :
    extract_concept_data usGaap (c :: rest) cutoff = r := by
  have hstep : extract_concept_data usGaap (c :: rest) cutoff =
      match tryUnits ((usGaap.lookup c).getD []) cutoff UNIT_PRIORITY with
      | some obs => obs
      | none => extract_concept_data usGaap rest cutoff := rfl
  unfold alias_result at h
  rw [hstep, h]

theorem extract_nil_of_no_data (usGaap : GaapMap) (cutoff : Int) :
    ∀ names, (∀ c ∈ names, ¬ alias_has_data usGaap c cutoff) →
      extract_concept_data usGaap names cutoff = [] := by
  intro names
  induction names with
  | nil => intro _; rfl
  | cons c rest ih =>
    intro h
    have hc : alias_result usGaap c cutoff = none := by
      have := h c (List.mem_cons_self _ _)
      rw [alias_has_data_iff_isSome] at this
      exact Option.not_isSome_iff_eq_none.mp this
    rw [extract_cons_of_none usGaap c rest cutoff hc]
    exact ih fun d hd => h d (List.mem_cons_of_mem _ hd)

/-! ## Claim C7 — extractor output invariants -/

/-- C7: every observation sequence produced by the Temporal Extractor has
pairwise-distinct `(period-end, amendment-stripped filing-type)` keys and is
sorted ascending (non-decreasing) by period-end date. -/
theorem C7_extractor_dedup_and_sorted (usGaap : GaapMap) (names : List String)
    (cutoff : Int) :
    (extract_concept_data usGaap names cutoff).Pairwise
        (fun a b => obsKey a ≠ obsKey b)
    ∧ (extract_concept_data usGaap names cutoff).Sorted obsLe := by
  induction names with
  | nil => exact ⟨List.Pairwise.nil, List.Pairwise.nil⟩
  | cons c rest ih =>
    rcases hres : alias_result usGaap c cutoff with _ | r
    · rw [extract_cons_of_none usGaap c rest cutoff hres]; exact ih
    · rw [extract_cons_of_some usGaap c rest cutoff r hres]
      exact tryUnits_invariants UNIT_PRIORITY _ cutoff r hres

/-! ## Claim C3 — Concept Resolver fallback order -/

/-- C3: the Concept Resolver picks, for each alias, the first unit kind in the
fixed priority order with surviving observations; with aliases `[a, b]` it
returns the series of `b` when `a` has no data and `b` does, returns the series of `a`
whenever `a` has data, and returns `[]` (without failing — the embedding is a
total function) when no alias has data under any unit kind. -/
theorem C3_concept_resolver_first_alias (usGaap : GaapMap) (a b : String)
    (cutoff : Int) :
    (alias_result usGaap a cutoff =
        (first_unit_with_data usGaap a cutoff).map
          fun ut => dedupByKey (sortObs (survivors usGaap a ut cutoff)) [])
    ∧ (¬ alias_has_data usGaap a cutoff → alias_has_data usGaap b cutoff →
        extract_concept_data usGaap [a, b] cutoff =
          (alias_result usGaap b cutoff).getD [])
    ∧ (alias_has_data usGaap a cutoff →
        extract_concept_data usGaap [a, b] cutoff =
          (alias_result usGaap a cutoff).getD [])
    ∧ (∀ names, (∀ c ∈ names, ¬ alias_has_data usGaap c cutoff) →
        extract_concept_data usGaap names cutoff = []) := by
  refine ⟨alias_result_eq_map_first_unit usGaap a cutoff, ?_, ?_,
    extract_nil_of_no_data usGaap cutoff⟩
  · intro hna hb
    have ha : alias_result usGaap a cutoff = none := by
      rw [alias_has_data_iff_isSome] at hna
      exact Option.not_isSome_iff_eq_none.mp hna
    rw [extract_cons_of_none usGaap a [b] cutoff ha]
    rw [alias_has_data_iff_isSome, Option.isSome_iff_exists] at hb
    rcases hb with ⟨r, hr⟩
    rw [extract_cons_of_some usGaap b [] cutoff r hr, hr]
    rfl
  · intro ha
    rw [alias_has_data_iff_isSome, Option.isSome_iff_exists] at ha
    rcases ha with ⟨r, hr⟩
    rw [extract_cons_of_some usGaap a [b] cutoff r hr, hr]
    rfl

/-- Concrete payload for the C3 witness: alias `"A"` is absent from the
taxonomy, alias `"B"` reports one valid 10-K entry in USD. -/
def c3Gaap : GaapMap :=
  [("B", [("USD", [⟨some 7, "2024-12-28", "10-K", "2025-02-20", some 2024, "FY"⟩])])]

/-- Witness for C3: with aliases `["A", "B"]` where `A` has no data and `B`
has one surviving USD entry, the resolver returns the cleaned series of `B`. -/
theorem C3_concept_resolver_first_alias_witness :
    extract_concept_data c3Gaap ["A", "B"] 2020 =
      [⟨some 7, "2024-12-28", "10-K", "2025-02-20", some 2024, "FY"⟩] := by
  have h := (C3_concept_resolver_first_alias c3Gaap "A" "B" 2020).2.1
    (by decide) (by decide)
  exact h.trans rfl

/-! ## Claim C1 — dedup direction (code bug)

The spec (and the comment the code itself carries at line 249: "deduplicate (keep latest
filing per period)") says the LAST-seen entry per
`(period_end, stripped form)` key wins, so that amendments override their
original filing.  The loop at lines 251-257 keeps the FIRST-seen entry
instead: with an original 10-K and a later-filed 10-K/A amendment for the
same period end, the original survives and the amendment is dropped. -/

/-- Raw payload for C1: one concept, one unit kind, an original 10-K filing
(value 100) followed — in filed order, as EDGAR lists entries — by its
10-K/A amendment (value 200) for the same period end. -/
def c1Gaap : GaapMap :=
  [("Revenues",
    [("USD",
      [⟨some 100, "2024-12-28", "10-K", "2025-02-20", some 2024, "FY"⟩,
       ⟨some 200, "2024-12-28", "10-K/A", "2025-06-01", some 2024, "FY"⟩])])]

/-- C1: the Temporal Extractor keeps the FIRST-seen entry per key — the
original 10-K (value 100) survives and the later amendment (value 200) is
discarded, refuting the claimed last-seen / amendment-overrides behaviour. -/
theorem C1_dedup_keeps_first_seen :
    extract_concept_data c1Gaap ["Revenues"] 2020 =
      [⟨some 100, "2024-12-28", "10-K", "2025-02-20", some 2024, "FY"⟩] := by
  decide

/-! ## Claim C10 — zero/null numerator suppresses its margin -/

theorem lookup_append_none {β : Type} (k : String) (l1 l2 : List (String × β))
    (h1 : List.lookup k l1 = none) (h2 : List.lookup k l2 = none) :
    List.lookup k (l1 ++ l2) = none := by
  induction l1 with
  | nil => simpa using h2
  | cons p rest ih =>
    rcases p with ⟨a, v⟩
    by_cases hak : k = a
    · subst hak
      simp [List.lookup] at h1
    · simp only [List.cons_append, List.lookup, beq_false_of_ne hak] at h1 ⊢
      exact ih h1

theorem marginEntry_lookup_ne (k l : String) (d : List Obs) (rv : ℚ)
    (h : k ≠ l) : List.lookup k (marginEntry l d rv) = none := by
  rcases hg : get_latest_value d "10-K" with _ | o
  · simp [marginEntry, hg]
  · rcases hv : o.value with _ | v
    · simp [marginEntry, hg, hv]
    · by_cases h0 : v = 0
      · simp [marginEntry, hg, hv, h0]
      · simp [marginEntry, hg, hv, h0, List.lookup, beq_false_of_ne h]

theorem marginEntry_eq_nil (l : String) (d : List Obs) (rv : ℚ)
    (h : (get_latest_value d "10-K").bind (·.value) = some 0
      ∨ (get_latest_value d "10-K").bind (·.value) = none) :
    marginEntry l d rv = [] := by
  rcases hg : get_latest_value d "10-K" with _ | o
  · simp [marginEntry, hg]
  · rcases hv : o.value with _ | v
    · simp [marginEntry, hg, hv]
    · have hv0 : v = 0 := by
        rcases h with h | h <;> rw [hg] at h <;>
          rw [show (some o).bind (·.value) = o.value from rfl, hv] at h
        · exact Option.some.inj h
        · exact absurd h (by simp)
      simp [marginEntry, hg, hv, hv0]

/-- C10: when the latest revenue value is strictly positive, a margin whose
numerator metric has a latest value that is exactly zero (or null) is omitted
from the margins output entirely — emission requires the latest numerator
value to be non-null and non-zero. -/
theorem C10_zero_numerator_margin_omitted (income : MetricsMap) (robs : Obs)
    (rv : ℚ)
    (hrev : get_latest_value ((income.lookup "revenue").getD []) "10-K" = some robs)
    (hval : robs.value = some rv) (hpos : 0 < rv) :
    (numeratorLatest income "gross_profit" = some 0
        ∨ numeratorLatest income "gross_profit" = none →
      List.lookup "Gross" (computeMargins income) = none)
    ∧ (numeratorLatest income "operating_income" = some 0
        ∨ numeratorLatest income "operating_income" = none →
      List.lookup "Operating" (computeMargins income) = none)
    ∧ (numeratorLatest income "net_income" = some 0
        ∨ numeratorLatest income "net_income" = none →
      List.lookup "Net" (computeMargins income) = none) := by
  have hm : computeMargins income =
      marginEntry "Gross" ((income.lookup "gross_profit").getD []) rv
        ++ marginEntry "Operating" ((income.lookup "operating_income").getD []) rv
        ++ marginEntry "Net" ((income.lookup "net_income").getD []) rv := by
    simp only [computeMargins]
    rw [hrev]
    simp [hval, hpos.ne', hpos]
  refine ⟨?_, ?_, ?_⟩
  · intro h
    rw [hm, marginEntry_eq_nil _ _ _ h]
    simp only [List.nil_append]
    exact lookup_append_none _ _ _
      (marginEntry_lookup_ne _ _ _ _ (by decide))
      (marginEntry_lookup_ne _ _ _ _ (by decide))
  · intro h
    rw [hm, marginEntry_eq_nil _ _ _ h]
    simp only [List.append_nil]
    exact lookup_append_none _ _ _
      (marginEntry_lookup_ne _ _ _ _ (by decide))
      (marginEntry_lookup_ne _ _ _ _ (by decide))
  · intro h
    rw [hm, marginEntry_eq_nil _ _ _ h]
    simp only [List.append_nil]
    exact lookup_append_none _ _ _
      (marginEntry_lookup_ne _ _ _ _ (by decide))
      (marginEntry_lookup_ne _ _ _ _ (by decide))

/-- Income map for the C10 witness: revenue latest value 100 (positive),
gross profit latest value exactly 0. -/
def c10Income : MetricsMap :=
  [("revenue", [⟨some 100, "2024-12-28", "10-K", "2025-02-20", some 2024, "FY"⟩]),
   ("gross_profit", [⟨some 0, "2024-12-28", "10-K", "2025-02-20", some 2024, "FY"⟩])]

/-- Witness for C10: with revenue 100 and a gross-profit latest value of
exactly 0, no gross margin is emitted. -/
theorem C10_zero_numerator_margin_omitted_witness :
    (0 : ℚ) < 100
    ∧ numeratorLatest c10Income "gross_profit" = some 0
    ∧ List.lookup "Gross" (computeMargins c10Income) = none :=
  ⟨by norm_num, rfl,
    (C10_zero_numerator_margin_omitted c10Income
      ⟨some 100, "2024-12-28", "10-K", "2025-02-20", some 2024, "FY"⟩ 100
      rfl rfl (by norm_num)).1 (Or.inl rfl)⟩

/-! ## Claim C2 — derivation guards vs a present-but-null value (code bug)

The guards of the key-ratios block test only the denominator-side value for
truthiness; the companion operand is passed to `float(...)` unguarded
(lines 645, 649, 653), so an observation that is present with a `null` value
makes the derivation raise `TypeError` instead of omitting the figure. -/

/-- Balance-sheet map for C2: a valid equity observation (value 2) and a
liabilities observation that is present but whose value is `null`. -/
def c2Balance : MetricsMap :=
  [("total_liabilities", [⟨none, "2024-12-28", "10-K", "2025-02-20", some 2024, "FY"⟩]),
   ("stockholders_equity", [⟨some 2, "2024-12-28", "10-K", "2025-02-20", some 2024, "FY"⟩])]

/-- C2: with equity present and non-zero but the liabilities value `null`,
the key-ratios derivation raises `TypeError` (from `float(None)`) instead of
omitting the debt-to-equity figure, refuting the claimed never-raise guard
behaviour. -/
theorem C2_null_liabilities_value_raises :
    computeRatios c2Balance = Except.error "TypeError" := rfl

/-! ## Helper lemmas: orchestrator traces and the digest -/

/-- Events of the gather phase: Source Runner invocations and pacing sleeps. -/
def isPacingEv : Ev → Bool
  | .runCall _ => true
  | .sleepCall => true
  | _ => false

theorem infix_surround {α : Type} (pre mid post whole : List α)
    (h : whole = pre ++ mid ++ post) : List.IsInfix mid whole :=
  ⟨pre, post, h.symm⟩

theorem joinComma_mem_within (name : String) :
    ∀ l : List String, name ∈ l → List.IsInfix name.data (joinComma l).data := by
  intro l
  induction l with
  | nil => intro h; exact absurd h (List.not_mem_nil _)
  | cons s rest ih =>
    intro hmem
    cases rest with
    | nil =>
      rcases List.mem_cons.mp hmem with rfl | h
      · exact List.infix_refl _
      · exact absurd h (List.not_mem_nil _)
    | cons r rs =>
      have hj : (joinComma (s :: r :: rs)).data =
          s.data ++ (", ").data ++ (joinComma (r :: rs)).data := by
        show (s ++ ", " ++ joinComma (r :: rs)).data = _
        simp [String.data_append]
      rcases List.mem_cons.mp hmem with rfl | h
      · exact infix_surround [] name.data ((", ").data ++ (joinComma (r :: rs)).data) _
          (by rw [hj]; simp [List.append_assoc])
      · exact (ih h).trans
          (infix_surround (s.data ++ (", ").data) _ [] _ (by rw [hj]; simp))

theorem run_source_source (fetch : FetchOracle) (s t c : String)
    (th d : Option String) : (run_source fetch s t c th d).1.source = s := by
  unfold run_source
  by_cases h : s ∈ SOURCE_REGISTRY
  · simp only [if_pos h]
    rcases fetch s t c th d with m | r <;> rfl
  · simp only [if_neg h]

theorem run_source_filter_pacing (fetch : FetchOracle) (s t c : String)
    (th d : Option String) :
    (run_source fetch s t c th d).2.filter isPacingEv = [Ev.runCall s] := by
  unfold run_source
  by_cases h : s ∈ SOURCE_REGISTRY
  · simp only [if_pos h]
    rcases fetch s t c th d with m | r <;> rfl
  · simp only [if_neg h]; rfl

theorem run_source_no_store (fetch : FetchOracle) (s t c : String)
    (th d : Option String) (x : String) :
    Ev.storeCall x ∉ (run_source fetch s t c th d).2 := by
  unfold run_source
  by_cases h : s ∈ SOURCE_REGISTRY
  · simp only [if_pos h]
    rcases fetch s t c th d with m | r <;> simp
  · simp only [if_neg h]; simp

theorem run_source_count_reindex (fetch : FetchOracle) (s t c : String)
    (th d : Option String) :
    (run_source fetch s t c th d).2.count Ev.reindexCall = 0 := by
  unfold run_source
  by_cases h : s ∈ SOURCE_REGISTRY
  · simp only [if_pos h]
    rcases fetch s t c th d with m | r <;> rfl
  · simp only [if_neg h]; rfl

theorem store_source_result_events (store : StoreOracle)
    (t s md ts : String) (dry : Bool) :
    (store_source_result store t s md ts dry).2 = [Ev.storeCall s] := by
  unfold store_source_result
  split <;> rfl

theorem trigger_reindex_events (r : ReindexR) (dry : Bool) :
    (trigger_reindex r dry).2 = [Ev.reindexCall] := by
  unfold trigger_reindex
  split <;> rfl

theorem run_loop_no_store (fetch : FetchOracle) (t c : String)
    (th d : Option String) (last : String) (x : String) :
    ∀ ss, Ev.storeCall x ∉ (run_sources_loop fetch t c th d last ss).2 := by
  intro ss
  induction ss with
  | nil => simp [run_sources_loop]
  | cons s rest ih =>
    have hexp : (run_sources_loop fetch t c th d last (s :: rest)).2 =
        (run_source fetch s t c th d).2
          ++ ((if s = last then [] else [Ev.sleepCall])
            ++ (run_sources_loop fetch t c th d last rest).2) := by
      simp [run_sources_loop]
    rw [hexp]
    intro h
    rcases List.mem_append.mp h with h | h
    · exact run_source_no_store fetch s t c th d x h
    rcases List.mem_append.mp h with h | h
    · revert h; split <;> simp
    · exact ih h

theorem run_loop_count_reindex (fetch : FetchOracle) (t c : String)
    (th d : Option String) (last : String) :
    ∀ ss, (run_sources_loop fetch t c th d last ss).2.count Ev.reindexCall = 0 := by
  intro ss
  induction ss with
  | nil => rfl
  | cons s rest ih =>
    simp only [run_sources_loop, List.count_append]
    rw [run_source_count_reindex, ih]
    split <;> rfl

theorem run_loop_filter_pacing_cons (fetch : FetchOracle) (t c : String)
    (th d : Option String) (last s : String) (rest : List String) :
    (run_sources_loop fetch t c th d last (s :: rest)).2.filter isPacingEv =
      Ev.runCall s :: (if s = last then [] else [Ev.sleepCall])
        ++ (run_sources_loop fetch t c th d last rest).2.filter isPacingEv := by
  simp only [run_sources_loop, List.filter_append, run_source_filter_pacing]
  split <;> rfl

theorem store_loop_count_reindex (store : StoreOracle) (t ts : String)
    (dry : Bool) :
    ∀ grs, (store_loop store t ts dry grs).2.2.count Ev.reindexCall = 0 := by
  intro grs
  induction grs with
  | nil => rfl
  | cons gr rest ih =>
    simp only [store_loop]
    split
    · simp only [List.count_append, store_source_result_events, ih]
      rfl
    · exact ih

theorem store_loop_filter_pacing (store : StoreOracle) (t ts : String)
    (dry : Bool) :
    ∀ grs, (store_loop store t ts dry grs).2.2.filter isPacingEv = [] := by
  intro grs
  induction grs with
  | nil => rfl
  | cons gr rest ih =>
    simp only [store_loop]
    split
    · simp only [List.filter_append, store_source_result_events, ih]
      rfl
    · exact ih

theorem store_loop_any_eq (store : StoreOracle) (t ts : String) (dry : Bool) :
    ∀ grs, (store_loop store t ts dry grs).2.1 =
      (store_loop store t ts dry grs).1.any (·.success) := by
  intro grs
  induction grs with
  | nil => rfl
  | cons gr rest ih =>
    simp only [store_loop]
    split
    · simp [List.any_cons, ih]
    · simp [List.any_cons, ih]

theorem store_loop_mem_store (store : StoreOracle) (t ts : String) (dry : Bool)
    (x : String) :
    ∀ grs, Ev.storeCall x ∈ (store_loop store t ts dry grs).2.2 →
      ∃ gr ∈ grs, gr.source = x ∧ gr.success = true ∧ gr.markdown ≠ "" := by
  intro grs
  induction grs with
  | nil => intro h; simp [store_loop] at h
  | cons gr rest ih =>
    simp only [store_loop]
    split
    · rename_i hcond
      simp only [store_source_result_events, List.cons_append, List.nil_append,
        List.mem_cons]
      rintro (h | h)
      · exact ⟨gr, Or.inl rfl,
          (Ev.storeCall.inj h).symm, hcond.1, hcond.2⟩
      · rcases ih h with ⟨g, hg, hrest⟩
        exact ⟨g, Or.inr hg, hrest⟩
    · intro h
      rcases ih h with ⟨g, hg, hrest⟩
      exact ⟨g, List.mem_cons_of_mem _ hg, hrest⟩

theorem filter_success_isEmpty_iff (grs : List GatherR) :
    (!(grs.filter (·.success)).isEmpty) = true ↔ ∃ gr ∈ grs, gr.success = true := by
  induction grs with
  | nil => simp
  | cons gr rest ih =>
    by_cases h : gr.success = true
    · simp [List.filter_cons, h]
    · simp only [List.filter_cons, h]
      simp only [Bool.false_eq_true, if_false]
      rw [ih]
      constructor
      · rintro ⟨g, hg, hs⟩
        exact ⟨g, List.mem_cons_of_mem _ hg, hs⟩
      · rintro ⟨g, hg, hs⟩
        rcases List.mem_cons.mp hg with rfl | hg
        · exact absurd hs h
        · exact ⟨g, hg, hs⟩

theorem build_summary_no_failed (ticker : String) (grs : List GatherR)
    (h : grs.filter (fun g => !g.success) = []) :
    build_summary ticker grs = summary_base ticker grs := by
  unfold build_summary
  simp [h]

theorem build_summary_names_failed (ticker : String) (grs : List GatherR)
    (gr : GatherR) (hmem : gr ∈ grs) (hfail : gr.success = false) :
    List.IsInfix gr.source.data (build_summary ticker grs).data := by
  unfold build_summary
  have hmemf : gr ∈ grs.filter (fun g => !g.success) :=
    List.mem_filter.mpr ⟨hmem, by simp [hfail]⟩
  have hmm : gr.source ∈ (grs.filter (fun g => !g.success)).map (·.source) :=
    List.mem_map_of_mem _ hmemf
  have hne : grs.filter (fun g => !g.success) ≠ [] := by
    intro h0
    rw [h0] at hmemf
    exact absurd hmemf (List.not_mem_nil _)
  rw [if_neg hne]
  refine (joinComma_mem_within gr.source _ hmm).trans ?_
  refine infix_surround ((summary_base ticker grs).data ++ (" (failed: ").data)
    _ ((")").data) _ ?_
  show (summary_base ticker grs ++ failed_clause _).data = _
  simp [String.data_append, failed_clause, List.append_assoc]

theorem gather_eq_main (fetch : FetchOracle) (store : StoreOracle)
    (reindex : ReindexR) (ticker company agent : String)
    (sources? : Option (List String)) (theme directive : Option String)
    (dry : Bool) (ts : String) (h : resolve_sources agent sources? ≠ []) :
    gather fetch store reindex ticker company agent sources? theme directive dry ts
      = gather_main fetch store reindex ticker company agent theme directive
          dry ts (resolve_sources agent sources?) := by
  unfold gather
  rw [if_neg h]

/-! ## Concrete oracles for witnesses and counterexamples -/

/-- A fetch oracle on which every source succeeds. -/
def exFetchOk : FetchOracle := fun _ _ _ _ _ =>
  FetchOutcome.returns ⟨"# md", 2, 3, 16, 4, 5⟩

/-- A fetch oracle on which every source raises. -/
def exFetchFail : FetchOracle := fun _ _ _ _ _ =>
  FetchOutcome.raises "API unavailable"

/-- A fetch oracle on which `web` raises and every other source succeeds. -/
def exFetchWebFails : FetchOracle := fun s _ _ _ _ =>
  if s = "web" then FetchOutcome.raises "API unavailable"
  else FetchOutcome.returns ⟨"# md", 2, 3, 16, 4, 5⟩

/-- A storage-sink oracle that always succeeds. -/
def exStore : StoreOracle := fun _ _ _ _ => ⟨true, "research/key", "uploaded"⟩

/-- A reindex-sink outcome that succeeds. -/
def exReindex : ReindexR := ⟨true, "reindexed"⟩

/-! ## Claim C4 — partial-failure aggregation and store gating -/

/-- C4: for a non-empty resolved source list, overall success holds iff some
gather succeeded (independent of store and reindex outcomes, which the
statement does not constrain); every failed source name appears in the digest;
the failure clause is omitted when nothing failed; and the storage sink is
entered only for sources whose gather succeeded with non-empty markdown. -/
theorem C4_failure_isolation_aggregation (fetch : FetchOracle) (store : StoreOracle)
    (reindex : ReindexR) (ticker company agent : String)
    (sources? : Option (List String)) (theme directive : Option String)
    (dry : Bool) (ts : String) (res : GatherReturn) (tr : List Ev)
    (hrun : gather fetch store reindex ticker company agent sources? theme
      directive dry ts = (res, tr))
    (hne : resolve_sources agent sources? ≠ []) :
    (res.success = true ↔ ∃ gr ∈ res.gather_results, gr.success = true)
    ∧ (∀ gr ∈ res.gather_results, gr.success = false →
        List.IsInfix gr.source.data res.summary.data)
    ∧ (res.gather_results.filter (fun g => !g.success) = [] →
        res.summary = summary_base ticker res.gather_results)
    ∧ (∀ s, Ev.storeCall s ∈ tr →
        ∃ gr ∈ res.gather_results,
          gr.source = s ∧ gr.success = true ∧ gr.markdown ≠ "") := by
  rw [gather_eq_main fetch store reindex ticker company agent sources? theme
    directive dry ts hne] at hrun
  have hres : (gather_main fetch store reindex ticker company agent theme
      directive dry ts (resolve_sources agent sources?)).1 = res :=
    congrArg Prod.fst hrun
  have htr : (gather_main fetch store reindex ticker company agent theme
      directive dry ts (resolve_sources agent sources?)).2 = tr :=
    congrArg Prod.snd hrun
  subst hres
  subst htr
  refine ⟨?_, ?_, ?_, ?_⟩
  · exact filter_success_isEmpty_iff _
  · intro gr hg hfail
    exact build_summary_names_failed ticker _ gr hg hfail
  · intro h
    exact build_summary_no_failed ticker _ h
  · intro s hs
    simp only [gather_main] at hs ⊢
    rcases List.mem_append.mp hs with h | h
    · rcases List.mem_append.mp h with h | h
      · exact absurd h (run_loop_no_store fetch ticker company theme directive _ s _)
      · exact store_loop_mem_store store ticker ts dry s _ h
    · exfalso
      revert h
      split
      · rw [trigger_reindex_events]; simp
      · simp

/-- Witness for C4: with sources `[web (fails), fundamentals (succeeds)]`
the orchestrator reports overall success and the digest names `web` in the
failure clause. -/
theorem C4_failure_isolation_aggregation_witness :
    (gather exFetchWebFails exStore exReindex "CAKE" "C" "nova" none none none
      false "2026-01-01").1.success = true
    ∧ List.IsInfix ("web").data
        (gather exFetchWebFails exStore exReindex "CAKE" "C" "nova" none none
          none false "2026-01-01").1.summary.data := by
  have h := C4_failure_isolation_aggregation exFetchWebFails exStore exReindex
    "CAKE" "C" "nova" none none none false "2026-01-01"
    (gather exFetchWebFails exStore exReindex "CAKE" "C" "nova" none none none
      false "2026-01-01").1
    (gather exFetchWebFails exStore exReindex "CAKE" "C" "nova" none none none
      false "2026-01-01").2
    rfl (by decide)
  constructor
  · exact h.1.mpr ⟨⟨"fundamentals", true, "# md", 16, none⟩, by decide, rfl⟩
  · exact h.2.1 ⟨"web", false, "", 0, some "API unavailable"⟩ (by decide) rfl

/-! ## Claim C5 — reindex gating -/

/-- C5: in every orchestrator invocation the reindex sink (`trigger_reindex`)
is entered exactly once when some Store Result succeeded and never otherwise;
when the pipeline ran but nothing was stored, the synthesized
"nothing stored" result is recorded instead. -/
theorem C5_reindex_gating (fetch : FetchOracle) (store : StoreOracle)
    (reindex : ReindexR) (ticker company agent : String)
    (sources? : Option (List String)) (theme directive : Option String)
    (dry : Bool) (ts : String) (res : GatherReturn) (tr : List Ev)
    (hrun : gather fetch store reindex ticker company agent sources? theme
      directive dry ts = (res, tr)) :
    (tr.count Ev.reindexCall
      = if res.store_results.any (·.success) then 1 else 0)
    ∧ (resolve_sources agent sources? ≠ [] →
        res.store_results.any (·.success) = false →
        res.reindex = ⟨false, "No data stored — skipping reindex"⟩) := by
  by_cases hne : resolve_sources agent sources? = []
  · have hearly : gather fetch store reindex ticker company agent sources?
        theme directive dry ts =
        (⟨ticker, company, agent, ts, [], [], [],
          ⟨false, "No sources to gather"⟩,
          "No sources configured for agent \x27" ++ agent ++ "\x27",
          false, none⟩, []) := by
      unfold gather
      rw [if_pos hne]
    rw [hearly] at hrun
    have hres := (Prod.mk.injEq _ _ _ _ ▸ hrun).1
    have htr := (Prod.mk.injEq _ _ _ _ ▸ hrun).2
    constructor
    · rw [← htr, ← hres]
      rfl
    · intro hne2 _
      exact absurd hne hne2
  · rw [gather_eq_main fetch store reindex ticker company agent sources? theme
      directive dry ts hne] at hrun
    have hres : (gather_main fetch store reindex ticker company agent theme
        directive dry ts (resolve_sources agent sources?)).1 = res :=
      congrArg Prod.fst hrun
    have htr : (gather_main fetch store reindex ticker company agent theme
        directive dry ts (resolve_sources agent sources?)).2 = tr :=
      congrArg Prod.snd hrun
    subst hres
    subst htr
    have hany := store_loop_any_eq store ticker ts dry
      (run_sources_loop fetch ticker company theme directive
        ((resolve_sources agent sources?).getLast?.getD "")
        (resolve_sources agent sources?)).1
    constructor
    · simp only [gather_main]
      rw [List.count_append, List.count_append,
        run_loop_count_reindex, store_loop_count_reindex]
      by_cases hb : (store_loop store ticker ts dry
          (run_sources_loop fetch ticker company theme directive
            ((resolve_sources agent sources?).getLast?.getD "")
            (resolve_sources agent sources?)).1).2.1 = true
      · rw [if_pos hb, if_pos (by rw [← hany]; exact hb),
          trigger_reindex_events]
        rfl
      · rw [if_neg hb, if_neg (by rw [← hany]; exact hb)]
        rfl
    · intro _ hanyfalse
      simp only [gather_main] at hanyfalse ⊢
      rw [← hany] at hanyfalse
      rw [if_neg (by simp [hanyfalse])]

/-- Witness for C5: when every source raises, nothing is stored, no reindex
event is emitted, and the synthesized "nothing stored" result is recorded. -/
theorem C5_reindex_gating_witness :
    (gather exFetchFail exStore exReindex "CAKE" "C" "nova" (some ["web"]) none
      none false "2026-01-01").2.count Ev.reindexCall = 0
    ∧ (gather exFetchFail exStore exReindex "CAKE" "C" "nova" (some ["web"])
        none none false "2026-01-01").1.reindex
      = ⟨false, "No data stored — skipping reindex"⟩ := by
  have h := C5_reindex_gating exFetchFail exStore exReindex "CAKE" "C" "nova"
    (some ["web"]) none none false "2026-01-01"
    (gather exFetchFail exStore exReindex "CAKE" "C" "nova" (some ["web"]) none
      none false "2026-01-01").1
    (gather exFetchFail exStore exReindex "CAKE" "C" "nova" (some ["web"]) none
      none false "2026-01-01").2
    rfl
  constructor
  · have h1 := h.1
    rw [show (gather exFetchFail exStore exReindex "CAKE" "C" "nova"
        (some ["web"]) none none false "2026-01-01").1.store_results.any
        (·.success) = false from rfl] at h1
    simpa using h1
  · exact h.2 (by decide) rfl

/-! ## Claim C6 — pacing delay placement (corrected)

The loop guard is `if source != sources[-1]` — a comparison of source NAMES,
not positions.  When an earlier element of the source list equals the name of the
last element, the delay after that earlier invocation is skipped, so the
claim as stated fails for lists with a duplicated last name; it holds whenever
the last name does not occur earlier in the list. -/

/-- The pacing pattern the claim asserts: one Source Runner invocation per
source in order, with exactly one delay between consecutive invocations. -/
def pacedPattern : List String → List Ev
  | [] => []
  | [s] => [Ev.runCall s]
  | s :: rest => Ev.runCall s :: Ev.sleepCall :: pacedPattern rest

theorem pacedPattern_cons (s : String) (l : List String) (h : l ≠ []) :
    pacedPattern (s :: l) = Ev.runCall s :: Ev.sleepCall :: pacedPattern l := by
  cases l with
  | nil => exact absurd rfl h
  | cons a as => rfl

theorem run_loop_paced (fetch : FetchOracle) (t c : String)
    (th d : Option String) :
    ∀ (init : List String) (lastS : String), lastS ∉ init →
      (run_sources_loop fetch t c th d lastS (init ++ [lastS])).2.filter isPacingEv
        = pacedPattern (init ++ [lastS]) := by
  intro init
  induction init with
  | nil =>
    intro lastS _
    simp only [List.nil_append]
    rw [run_loop_filter_pacing_cons]
    simp [pacedPattern, run_sources_loop]
  | cons s rest ih =>
    intro lastS hno
    have hs : s ≠ lastS := by
      intro h
      exact hno (by rw [← h]; exact List.mem_cons_self _ _)
    have hrest : lastS ∉ rest := fun h => hno (List.mem_cons_of_mem _ h)
    rw [List.cons_append, run_loop_filter_pacing_cons, if_neg hs,
      ih lastS hrest, pacedPattern_cons s (rest ++ [lastS]) (by simp)]
    rfl

/-- C6 (amended): when the resolved source list is non-empty and the name of
its last element does not occur earlier in the list, the gather-phase trace is
exactly one Source Runner invocation per source in order with the pacing delay
exactly between consecutive invocations — never before the first or after the
last.  (The unamended claim fails when the last name is duplicated earlier:
see the counterexample.) -/
theorem C6_pacing_between_consecutive_runs (fetch : FetchOracle)
    (store : StoreOracle) (reindex : ReindexR) (ticker company agent : String)
    (sources? : Option (List String)) (theme directive : Option String)
    (dry : Bool) (ts : String) (res : GatherReturn) (tr : List Ev)
    (init : List String) (lastS : String)
    (hrun : gather fetch store reindex ticker company agent sources? theme
      directive dry ts = (res, tr))
    (hsrc : resolve_sources agent sources? = init ++ [lastS])
    (hnodup : lastS ∉ init) :
    tr.filter isPacingEv = pacedPattern (init ++ [lastS]) := by
  have hne : resolve_sources agent sources? ≠ [] := by
    rw [hsrc]; simp
  rw [gather_eq_main fetch store reindex ticker company agent sources? theme
    directive dry ts hne, hsrc] at hrun
  have htr : (gather_main fetch store reindex ticker company agent theme
      directive dry ts (init ++ [lastS])).2 = tr :=
    congrArg Prod.snd hrun
  rw [← htr]
  simp only [gather_main]
  rw [List.filter_append, List.filter_append, store_loop_filter_pacing]
  have hr : ((if (store_loop store ticker ts dry
        (run_sources_loop fetch ticker company theme directive
          ((init ++ [lastS]).getLast?.getD "") (init ++ [lastS])).1).2.1 then
          trigger_reindex reindex dry
        else (⟨false, "No data stored — skipping reindex"⟩, [])).2).filter
      isPacingEv = [] := by
    split
    · rw [trigger_reindex_events]; rfl
    · rfl
  rw [hr]
  have hlast : ((init ++ [lastS]).getLast?.getD "") = lastS := by
    rw [List.getLast?_concat]
    rfl
  rw [hlast, run_loop_paced fetch ticker company theme directive init lastS hnodup]
  simp

/-- Witness for C6 (amended): two distinct sources produce run, sleep, run. -/
theorem C6_pacing_between_consecutive_runs_witness :
    (gather exFetchOk exStore exReindex "CAKE" "C" "nova" none none none false
      "2026-01-01").2.filter isPacingEv
      = [Ev.runCall "web", Ev.sleepCall, Ev.runCall "fundamentals"] := by
  have h := C6_pacing_between_consecutive_runs exFetchOk exStore exReindex
    "CAKE" "C" "nova" none none none false "2026-01-01"
    (gather exFetchOk exStore exReindex "CAKE" "C" "nova" none none none false
      "2026-01-01").1
    (gather exFetchOk exStore exReindex "CAKE" "C" "nova" none none none false
      "2026-01-01").2
    ["web"] "fundamentals" rfl rfl (by decide)
  exact h.trans rfl

/-- Counterexample for C6 as stated: with the duplicate source list
`["web", "web"]` the name-based guard `source != sources[-1]` is false already
at the first element, so NO delay is inserted between the two consecutive
invocations, while the claim demands exactly one. -/
theorem C6_duplicate_name_skips_delay :
    (gather exFetchOk exStore exReindex "CAKE" "C" "nova" (some ["web", "web"])
        none none true "2026-01-01").2.filter isPacingEv
      = [Ev.runCall "web", Ev.runCall "web"]
    ∧ (gather exFetchOk exStore exReindex "CAKE" "C" "nova"
        (some ["web", "web"]) none none true "2026-01-01").2.filter isPacingEv
      ≠ pacedPattern ["web", "web"] := by
  constructor
  · rfl
  · intro h
    exact absurd (rfl.symm.trans h) (by decide)

/-! ## Claim C8 — unknown source rejected without a fetch -/

/-- C8: a source identifier outside the registry yields an immediate failed
Gather Result whose error text names the unknown source, with empty markdown
and zero metric count, and the trace shows no fetch invocation — only the
Source Runner entry event. -/
theorem C8_unknown_source_immediate_failure (fetch : FetchOracle)
    (source ticker company : String) (theme directive : Option String)
    (h : source ∉ SOURCE_REGISTRY) :
    run_source fetch source ticker company theme directive =
      (⟨source, false, "", 0, some ("Unknown source: " ++ source)⟩,
        [Ev.runCall source]) := by
  unfold run_source
  rw [if_neg h]

/-- Witness for C8: the unregistered source `"bogus"` is rejected with the
identifying error and no fetch event. -/
theorem C8_unknown_source_immediate_failure_witness :
    run_source exFetchOk "bogus" "CAKE" "C" none none =
      (⟨"bogus", false, "", 0, some "Unknown source: bogus"⟩,
        [Ev.runCall "bogus"]) := by
  rw [C8_unknown_source_immediate_failure exFetchOk "bogus" "CAKE" "C" none
    none (by decide)]
  rfl

/-! ## Claim C9 — empty resolved source list short-circuits -/

/-- C9: with no explicit source list and an agent whose default source list is
empty, the orchestrator returns the early record — `success = false`, a
summary that starts with "No sources", no gather results, no store results —
and emits no events at all (no storage-sink or reindex-sink entry). -/
theorem C9_no_sources_short_circuit (fetch : FetchOracle) (store : StoreOracle)
    (reindex : ReindexR) (ticker company agent : String)
    (theme directive : Option String) (dry : Bool) (ts : String)
    (h : resolve_sources agent none = []) :
    gather fetch store reindex ticker company agent none theme directive dry ts
      = (⟨ticker, company, agent, ts, [], [], [],
          ⟨false, "No sources to gather"⟩,
          "No sources configured for agent \x27" ++ agent ++ "\x27",
          false, none⟩, [])
    ∧ List.IsPrefix ("No sources").data
        ("No sources configured for agent \x27" ++ agent ++ "\x27").data := by
  constructor
  · unfold gather
    rw [if_pos h]
  · have h2 : ("No sources configured for agent \x27" ++ agent ++ "\x27").data
        = ("No sources configured for agent \x27").data
          ++ (agent.data ++ ("\x27").data) := by
      simp [String.data_append]
    rw [h2]
    exact (show List.IsPrefix ("No sources").data
        ("No sources configured for agent \x27").data by decide).trans
      ( List.prefix_append _ _)

/-- Witness for C9: agent `max` has zero default sources; with no explicit
list the invocation short-circuits with no results and an empty trace. -/
theorem C9_no_sources_short_circuit_witness :
    (gather exFetchOk exStore exReindex "CAKE" "C" "max" none none none false
      "2026-01-01").1.success = false
    ∧ (gather exFetchOk exStore exReindex "CAKE" "C" "max" none none none false
        "2026-01-01").1.gather_results = []
    ∧ (gather exFetchOk exStore exReindex "CAKE" "C" "max" none none none false
        "2026-01-01").1.store_results = []
    ∧ (gather exFetchOk exStore exReindex "CAKE" "C" "max" none none none false
        "2026-01-01").2 = [] := by
  have h := (C9_no_sources_short_circuit exFetchOk exStore exReindex "CAKE" "C"
    "max" none none false "2026-01-01" rfl).1
  refine ⟨?_, ?_, ?_, ?_⟩ <;> rw [h]
